import Mathlib

/-!
Verification development for the ClawCloud auto-login script
(`scripts/auto_login.py`).

The script is shallowly embedded: each Python function that the claims
are about is translated into an executable Lean definition.  External
effects (HTTP responses, the browser page's current URL at each poll,
configuration values) are passed in explicitly as environment data, so
every definition is a pure function of the run's observable inputs.

Conventions used throughout:
- Python substring tests (`needle in haystack`) become `hasSub` on
  `List Char` / `hasSubS` on `String`.
- Python truthiness of an optional environment string (`None` and `""`
  are falsy) becomes `truthy : Option String → Bool`.
- `\s` and `\d` of the code regex are modelled by the ASCII whitespace
  and digit classes (`isSpc`, `Char.isDigit`).
- Bounded `for i in range(n)` polling loops become structural recursion
  on the remaining iteration count, with the page URL observed at poll
  `i` supplied by a function `urls : Nat → String`.
-/

/-- ASCII whitespace, the characters matched by the regex class used in
`re.compile(r"^/code\s+(\d{6,8})$")` and by `str.strip()` (restricted to
ASCII). -/
def isSpc (c : Char) : Bool :=
  c == ' ' || c == '\t' || c == '\n' || c == '\r' || c == '\x0b' || c == '\x0c'

/-- Python's `needle in haystack` substring test on character lists. -/
def hasSub (n : List Char) : List Char → Bool
  | [] => n.isEmpty
  | c :: rest => n.isPrefixOf (c :: rest) || hasSub n rest

/-- Python's `needle in haystack` substring test on strings. -/
def hasSubS (n h : String) : Bool := hasSub n.data h.data

/-- Python's `str.lower()` (ASCII fragment). -/
def pyLower (s : String) : String := String.mk (s.data.map Char.toLower)

/-- Python's `str.strip()` on character lists (ASCII whitespace). -/
def stripChars (cs : List Char) : List Char :=
  ((cs.dropWhile isSpc).reverse.dropWhile isSpc).reverse

/-- The anchored operator-code pattern `^/code\s+(\d{6,8})$` from
`Telegram.wait_code`, on character lists: a literal `/code` token, at
least one whitespace character (`\s+` — the leading whitespace run of
the remainder must be non-empty), then 6 to 8 digits and nothing after
(`(\d{6,8})$`); returns the digit group. -/
def code_match_l (cs : List Char) : Option (List Char) :=
  if cs.take 5 = String.data "/code" ∧ (cs.drop 5).takeWhile isSpc ≠ [] then
    if ((cs.drop 5).dropWhile isSpc).all Char.isDigit ∧
        6 ≤ ((cs.drop 5).dropWhile isSpc).length ∧
        ((cs.drop 5).dropWhile isSpc).length ≤ 8
    then some ((cs.drop 5).dropWhile isSpc) else none
  else none

/-- The operator-code pattern on strings (`pattern.match(text)` with the
digit group returned, as in `Telegram.wait_code`). -/
def code_match (s : String) : Option String :=
  (code_match_l s.data).map (fun ds => String.mk ds)

/-- Python truthiness of an optional environment string: `None` and the
empty string are falsy (`bool(self.token and self.chat_id)`). -/
def truthy : Option String → Bool
  | none => false
  | some s => !s.isEmpty

/-- One Telegram update as consumed by `Telegram.wait_code`: its
`update_id`, the sender chat id (already converted by `str(...)`), and
the message text. -/
structure Update where
  update_id : Nat
  chat : String
  text : String
deriving DecidableEq, Repr

/-- Model of the success branch of `Telegram.flush_updates`: the
`getUpdates` request returned an ok payload, so the offset is
fast-forwarded past the pending backlog — `last pending update_id + 1`,
or `0` when there is no pending update (an empty `result` is falsy and
falls through to `return 0`, which coincides).  The failure branch is
added by `flush_updates_req`. -/
def flush_updates (backlog : List Update) : Nat :=
  match backlog.getLast? with
  | some u => u.update_id + 1
  | none => 0

/-- Model of `Telegram.flush_updates` with both outcomes of its
`getUpdates` request: when the request raises, or its payload is not ok
(`req = false`), every branch falls through to `return 0`, leaving the
offset at 0 even though messages may still be pending; when the request
succeeds (`req = true`) the offset is fast-forwarded past the pending
backlog. -/
def flush_updates_req (req : Bool) (backlog : List Update) : Nat :=
  if req then flush_updates backlog else 0

/-- The per-update acceptance test inside `Telegram.wait_code`'s loop:
the sender chat id must equal the configured chat id, and the stripped
text must match the code pattern. -/
def upd_match (chatId : String) (u : Update) : Bool :=
  (u.chat == chatId) && (code_match_l (stripChars u.text.data)).isSome

/-- One pass over a `getUpdates` batch in `Telegram.wait_code`: the
offset is advanced past every examined update (`offset = upd["update_id"]
+ 1`), and the first accepted update is returned. -/
def scan_batch (chatId : String) : List Update → Nat → Nat × Option Update
  | [], off => (off, none)
  | u :: rest, _ =>
    if upd_match chatId u then (u.update_id + 1, some u)
    else scan_batch chatId rest (u.update_id + 1)

/-- The polling loop of `Telegram.wait_code` over a fixed stream of
updates: each round requests the updates with `update_id ≥ offset`,
scans them in arrival order, and either returns the first accepted
update or repeats with the advanced offset until the deadline (`fuel`
polling rounds) elapses.  Also returns the number of polling rounds
performed. -/
def wait_loop (stream : List Update) (chatId : String) : Nat → Nat → Option Update × Nat
  | _, 0 => (none, 0)
  | off, fuel + 1 =>
    match scan_batch chatId (stream.filter fun u => decide (off ≤ u.update_id)) off with
    | (_, some u) => (some u, 1)
    | (off2, none) =>
      let r := wait_loop stream chatId off2 fuel
      (r.1, r.2 + 1)

/-- Relay-channel configuration (`TG_BOT_TOKEN`, `TG_CHAT_ID`). -/
structure TgConfig where
  token : Option String
  chat_id : Option String
deriving DecidableEq, Repr

/-- Model of `self.ok = bool(self.token and self.chat_id)`. -/
def tgOk (cfg : TgConfig) : Bool := truthy cfg.token && truthy cfg.chat_id

/-- Model of `Telegram.wait_code`: `None` immediately when the channel is
unconfigured; otherwise flush the offset (`flushReq` is the outcome of
the flush's `getUpdates` request — on failure the offset falls back to
0), then long-poll for a `/code` command, returning the digit group of
the first accepted message.  `backlog` are the messages already pending
when the wait begins, `later` those arriving afterwards; the result is
paired with the number of polling rounds performed. -/
def wait_code (cfg : TgConfig) (flushReq : Bool) (backlog later : List Update)
    (fuel : Nat) : Option String × Nat :=
  if tgOk cfg then
    let r := wait_loop (backlog ++ later) (cfg.chat_id.getD "")
      (flush_updates_req flushReq backlog) fuel
    (r.1.bind fun u => (code_match_l (stripChars u.text.data)).map (fun ds => String.mk ds),
      r.2)
  else (none, 0)

/-- The ordering of Telegram update ids: within one stream of updates
they are strictly increasing. -/
def updLt (a b : Update) : Prop := a.update_id < b.update_id

instance updLtDecidable : DecidableRel updLt :=
  fun a b => Nat.decLt a.update_id b.update_id

/-- The remote-store environment of one `SecretUpdater.update` call:
whether `REPO_TOKEN` and `GITHUB_REPOSITORY` are configured, then the
outcome of the public-key GET and of the secret PUT — each either an
HTTP status or an exception (`Except.error`; an exception anywhere
between the GET's return and the PUT's return, e.g. during sealing, is
folded into `putResp`). -/
structure UpdateEnv where
  okFlag : Bool
  keyResp : Except String Nat
  putResp : Except String Nat
deriving Repr

/-- Model of `SecretUpdater.update`: `False` when unconfigured; `False` when the
public-key GET does not return 200 or anything raises; otherwise report
success exactly when the PUT returns status 201 or 204. -/
def SecretUpdater.update (env : UpdateEnv) : Bool :=
  if env.okFlag then
    match env.keyResp with
    | Except.error _ => false
    | Except.ok ks =>
      if ks ≠ 200 then false
      else
        match env.putResp with
        | Except.error _ => false
        | Except.ok ps => ps == 201 || ps == 204
  else false

/-- The status returned by the final store-update (PUT) request, when
the call reaches it and it returns: `none` when the PUT is never made
(unconfigured, key fetch failed) or raised. -/
def final_put_status (env : UpdateEnv) : Option Nat :=
  if env.okFlag then
    match env.keyResp with
    | Except.error _ => none
    | Except.ok ks =>
      if ks ≠ 200 then none
      else
        match env.putResp with
        | Except.error _ => none
        | Except.ok ps => some ps
  else none

/-- The observable effects of one `AutoLogin.save_cookie` call: the log
lines appended and the relay messages sent, in order. -/
structure Effects where
  logs : List String
  sends : List String
deriving DecidableEq, Repr

/-- Python's `s[-n:]`. -/
def pyTakeRight (s : String) (n : Nat) : String :=
  String.mk (s.data.drop (s.data.length - n))

/-- The manual-fallback relay message of `AutoLogin.save_cookie`,
containing the literal credential value in a `<code>` block. -/
def relay_msg (value : String) : String :=
  "🔑 <b>新 Cookie</b>\n\n请更新 Secret <b>GH_SESSION</b>:\n<code>" ++ value ++ "</code>"

/-- The partial-value log line of `AutoLogin.save_cookie`
(`value[:15]` and `value[-8:]`). -/
def cookie_log (value : String) : String :=
  "✅ 新 Cookie: " ++ String.mk (value.data.take 15) ++ "..." ++ pyTakeRight value 8

/-- Model of `AutoLogin.save_cookie`: no effect on a falsy value; otherwise log
the partial value, attempt the remote secret update, and on success log
and notify the automatic update, while on failure send the literal
value to the operator and log that it was sent. -/
def save_cookie (value : String) (env : UpdateEnv) : Effects :=
  if value.isEmpty then { logs := [], sends := [] }
  else if SecretUpdater.update env then
    { logs := [cookie_log value, "✅ 已自动更新 GH_SESSION"],
      sends := ["🔑 <b>Cookie 已自动更新</b>\n\nGH_SESSION 已保存"] }
  else
    { logs := [cookie_log value, "✅ 已通过 Telegram 发送 Cookie"],
      sends := [relay_msg value] }

/-- The constant `DEVICE_VERIFY_WAIT = 30`. -/
def DEVICE_VERIFY_WAIT : Nat := 30

/-- The on-path test of `AutoLogin.wait_device`'s scheduled checks: the
URL is still on the device-verification path when it contains either
marker (`'verified-device' in url or 'device-verification' in url`). -/
def device_on_path (url : String) : Bool :=
  hasSubS "verified-device" url || hasSubS "device-verification" url

/-- The polling loop of `AutoLogin.wait_device`: at every iteration
whose index is a multiple of 5 the current URL is checked, and leaving
the device-verification path returns `True` at once (a soft reload is
triggered otherwise); when the loop is exhausted the URL is read once
more and the resolver returns `True` unless it still contains the
`'verified-device'` marker.  `urls i` is the page URL observed at
iteration `i`; the post-loop read is `urls wait`. -/
def wait_device_from (urls : Nat → String) : Nat → Nat → Bool
  | i, 0 => !hasSubS "verified-device" (urls i)
  | i, rem + 1 =>
    if i % 5 == 0 && !device_on_path (urls i) then true
    else wait_device_from urls (i + 1) rem

/-- Model of `AutoLogin.wait_device` with a wait window of `wait` seconds. -/
def wait_device (urls : Nat → String) (wait : Nat) : Bool :=
  wait_device_from urls 0 wait

/-- The polling loop of `AutoLogin.wait_two_factor_mobile`: every second
the URL is read; if it no longer contains
`"github.com/sessions/two-factor/"` the resolver returns `True`
(approved); otherwise, if it contains `"github.com/login"` the resolver
returns `False` (bounced back to login); loop exhaustion is a timeout
(`False`). -/
def wait2fa_from (urls : Nat → String) : Nat → Nat → Bool
  | _, 0 => false
  | i, rem + 1 =>
    if !hasSubS "github.com/sessions/two-factor/" (urls i) then true
    else if hasSubS "github.com/login" (urls i) then false
    else wait2fa_from urls (i + 1) rem

/-- Model of `AutoLogin.wait_two_factor_mobile` with a wait window of `wait`
seconds. -/
def wait_two_factor_mobile (urls : Nat → String) (wait : Nat) : Bool :=
  wait2fa_from urls 0 wait

/-- The stages of `AutoLogin.run` (and of `login_github`) that a run
invokes, in order.  Used to state which stages a given path performs. -/
inductive Stage where
  | clickGitHub
  | loginGithub
  | oauthClick
  | waitRedirect
  | waitDeviceStage
  | twoFactorMobileStage
  | twoFactorCodeStage
  | keepalive
  | extractCookie
  | saveCookieStage
deriving DecidableEq, Repr

/-- The environment of one `AutoLogin.login_github` call: whether the
credential fill succeeds, the outcomes of the unguarded
`wait_for_load_state` waits (an `Except.error` is an exception that
propagates to `run`'s handler), the URLs observed at each branch point,
the URL traces driving the two resolvers, the configured second-factor
window, the outcome of the code-entry sub-flow
(`handle_2fa_code_input`, which never raises), and whether an inline
error banner is visible at the end. -/
structure LoginEnv where
  fillOk : Bool
  postSubmitWait : Except String Unit
  urlAfterSubmit : String
  deviceUrls : Nat → String
  postDeviceWait : Except String Unit
  url2fa : String
  url2faKind : String
  mobileUrls : Nat → String
  twoFactorWait : Nat
  code2fa : Bool
  flashError : Bool

/-- The final inline-error check of `AutoLogin.login_github`
(`.flash-error` visible means the credentials were rejected). -/
def login_flash (env : LoginEnv) (acc : List Stage) : Except String Bool × List Stage :=
  if env.flashError then (Except.ok false, acc) else (Except.ok true, acc)

/-- The second-factor branch of `AutoLogin.login_github`: on a
two-factor URL, the mobile-push resolver for `two-factor/mobile` and
the code-entry sub-flow otherwise; a non-resolved outcome fails the
login. -/
def login_after_device (env : LoginEnv) (acc : List Stage) :
    Except String Bool × List Stage :=
  if hasSubS "two-factor" env.url2fa then
    if hasSubS "two-factor/mobile" env.url2faKind then
      if wait_two_factor_mobile env.mobileUrls env.twoFactorWait then
        login_flash env (acc ++ [Stage.twoFactorMobileStage])
      else (Except.ok false, acc ++ [Stage.twoFactorMobileStage])
    else
      if env.code2fa then login_flash env (acc ++ [Stage.twoFactorCodeStage])
      else (Except.ok false, acc ++ [Stage.twoFactorCodeStage])
  else login_flash env acc

/-- Model of `AutoLogin.login_github`: fill credentials (failure returns
`False`), submit, wait (may raise), then the device-verification
resolver if its markers are in the URL (timeout fails the login, and
the follow-up wait may raise), then the second-factor branch, then the
inline-error check.  Returns the outcome (or the propagating exception)
and the challenge stages invoked. -/
def login_github (env : LoginEnv) : Except String Bool × List Stage :=
  if env.fillOk then
    match env.postSubmitWait with
    | Except.error e => (Except.error e, [])
    | Except.ok _ =>
      if device_on_path env.urlAfterSubmit then
        if wait_device env.deviceUrls DEVICE_VERIFY_WAIT then
          match env.postDeviceWait with
          | Except.error e => (Except.error e, [Stage.waitDeviceStage])
          | Except.ok _ => login_after_device env [Stage.waitDeviceStage]
        else (Except.ok false, [Stage.waitDeviceStage])
      else login_after_device env []
  else (Except.ok false, [])

/-- The environment of one `AutoLogin.run` call: the configuration
(`GH_USERNAME`, `GH_PASSWORD`, `GH_SESSION`), the outcome of browser
startup (playwright launch, context and page creation — all outside the
`try`), the outcomes of the guarded steps inside the `try` (an
`Except.error` is an exception caught by the handler), the URLs
observed at each branch point, the environment for `login_github`, the
outcome of `wait_redirect`, the extracted session cookie, and the
secret-store environment. -/
structure RunEnv where
  username : Option String
  password : Option String
  gh_session : String
  launch : Except String Unit
  preloadOk : Bool
  gotoStep : Except String Unit
  urlAfterGoto : String
  clickGitHub : Bool
  postClickWait : Except String Unit
  urlAfterClick : String
  loginEnv : LoginEnv
  oauthStep : Except String Unit
  redirectResult : Except String Bool
  urlFinal : String
  newCookie : Option String
  updEnv : UpdateEnv

/-- What one `AutoLogin.run` execution observably does: the process
exit status (0 = success), the reporter invocations (`notify(ok)`, in
order, by their `ok` flag), and the stages invoked. -/
structure RunResult where
  exitCode : Nat
  notifies : List Bool
  stages : List Stage
deriving DecidableEq, Repr

/-- Model of the `except Exception` handler of `run`: screenshot, log, then
`notify(False, e)` and `sys.exit(1)`. -/
def crash_result (stages : List Stage) : RunResult :=
  { exitCode := 1, notifies := [false], stages := stages }

/-- The success tail of `AutoLogin.run` (shared by the short-circuit
path and the full path): keepalive, cookie extraction, `save_cookie`
when a cookie was extracted, then `notify(True)` and a normal exit. -/
def success_tail (newCookie : Option String) (acc : List Stage) : RunResult :=
  match newCookie with
  | some _ =>
    { exitCode := 0, notifies := [true],
      stages := acc ++ [Stage.keepalive, Stage.extractCookie, Stage.saveCookieStage] }
  | none =>
    { exitCode := 0, notifies := [true],
      stages := acc ++ [Stage.keepalive, Stage.extractCookie] }

/-- Steps 4–7 of `AutoLogin.run`: `wait_redirect` (raise → handler;
`False` → failure report and exit 1), the final URL verification, then
the success tail. -/
def run_step4 (env : RunEnv) (acc : List Stage) : RunResult :=
  match env.redirectResult with
  | Except.error _ => crash_result (acc ++ [Stage.waitRedirect])
  | Except.ok false =>
    { exitCode := 1, notifies := [false], stages := acc ++ [Stage.waitRedirect] }
  | Except.ok true =>
    if !hasSubS "claw.cloud" env.urlFinal ||
        hasSubS "signin" (pyLower env.urlFinal) then
      { exitCode := 1, notifies := [false], stages := acc ++ [Stage.waitRedirect] }
    else success_tail env.newCookie (acc ++ [Stage.waitRedirect])

/-- Step 3 of `AutoLogin.run`: branch on the URL after the provider
handoff — a login/session URL runs `login_github`, else an
authorize URL runs `oauth` (note the branch order of the source: the
authorize test is an `elif` after the login test), else fall through to
the redirect wait. -/
def run_step3 (env : RunEnv) : RunResult :=
  if hasSubS "github.com/login" env.urlAfterClick ||
      hasSubS "github.com/session" env.urlAfterClick then
    match login_github env.loginEnv with
    | (Except.error _, s) => crash_result ([Stage.clickGitHub, Stage.loginGithub] ++ s)
    | (Except.ok false, s) =>
      { exitCode := 1, notifies := [false],
        stages := [Stage.clickGitHub, Stage.loginGithub] ++ s }
    | (Except.ok true, s) => run_step4 env ([Stage.clickGitHub, Stage.loginGithub] ++ s)
  else if hasSubS "github.com/login/oauth/authorize" env.urlAfterClick then
    match env.oauthStep with
    | Except.error _ => crash_result [Stage.clickGitHub, Stage.oauthClick]
    | Except.ok _ => run_step4 env [Stage.clickGitHub, Stage.oauthClick]
  else run_step4 env [Stage.clickGitHub]

/-- Model of `AutoLogin.run`: missing credentials report failure and exit 1
before the browser starts; browser startup happens outside the
`try`/`except`, so an exception there escapes unreported (exit 1 with
no notify); inside the `try`, navigate to the sign-in URL, short-circuit
to the success tail when the resulting URL is no longer a sign-in URL,
else provider handoff (missing button: failure report, exit 1), then
step 3 onwards.  Guarded-step exceptions reach the handler
(`crash_result`). -/
def run (env : RunEnv) : RunResult :=
  if !(truthy env.username && truthy env.password) then
    { exitCode := 1, notifies := [false], stages := [] }
  else
    match env.launch with
    | Except.error _ => { exitCode := 1, notifies := [], stages := [] }
    | Except.ok _ =>
      match env.gotoStep with
      | Except.error _ => crash_result []
      | Except.ok _ =>
        if !hasSubS "signin" (pyLower env.urlAfterGoto) then
          success_tail env.newCookie []
        else if !env.clickGitHub then
          { exitCode := 1, notifies := [false], stages := [Stage.clickGitHub] }
        else
          match env.postClickWait with
          | Except.error _ => crash_result [Stage.clickGitHub]
          | Except.ok _ => run_step3 env

/-- A run environment whose browser launch raises: credentials are
configured, so the missing-credential path is not taken, and the
exception happens before the `try` block. -/
def launch_fail_env : RunEnv where
  username := some "user"
  password := some "pw"
  gh_session := ""
  launch := Except.error "chromium launch failed"
  preloadOk := true
  gotoStep := Except.ok ()
  urlAfterGoto := ""
  clickGitHub := true
  postClickWait := Except.ok ()
  urlAfterClick := ""
  loginEnv :=
    { fillOk := true, postSubmitWait := Except.ok (), urlAfterSubmit := "",
      deviceUrls := fun _ => "", postDeviceWait := Except.ok (), url2fa := "",
      url2faKind := "", mobileUrls := fun _ => "", twoFactorWait := 120,
      code2fa := true, flashError := false }
  oauthStep := Except.ok ()
  redirectResult := Except.ok true
  urlFinal := ""
  newCookie := none
  updEnv := { okFlag := false, keyResp := Except.error "", putResp := Except.error "" }

/-- A run environment on the short-circuit path: a pre-loaded session
leaves the post-navigation URL already authenticated (no `signin` in
it). -/
def short_circuit_env : RunEnv where
  username := some "user"
  password := some "pw"
  gh_session := "oldtok"
  launch := Except.ok ()
  preloadOk := true
  gotoStep := Except.ok ()
  urlAfterGoto := "https://ap-northeast-1.run.claw.cloud/dashboard"
  clickGitHub := true
  postClickWait := Except.ok ()
  urlAfterClick := ""
  loginEnv :=
    { fillOk := true, postSubmitWait := Except.ok (), urlAfterSubmit := "",
      deviceUrls := fun _ => "", postDeviceWait := Except.ok (), url2fa := "",
      url2faKind := "", mobileUrls := fun _ => "", twoFactorWait := 120,
      code2fa := true, flashError := false }
  oauthStep := Except.ok ()
  redirectResult := Except.ok true
  urlFinal := ""
  newCookie := some "newtok"
  updEnv := { okFlag := false, keyResp := Except.error "", putResp := Except.error "" }

/-! ### Theorems -/

theorem hasSub_iff (n h : List Char) : hasSub n h = true ↔ n <:+: h := by
  induction h with
  | nil =>
    simp [hasSub, List.isEmpty_iff]
  | cons c rest ih =>
    simp [hasSub, List.infix_cons_iff, ih, List.isPrefixOf_iff_prefix]

theorem hasSub_of_append (n a b : List Char) : hasSub n (a ++ n ++ b) = true := by
  rw [hasSub_iff]
  exact ⟨a, b, by simp⟩

/-- Characters cannot be both a digit and (ASCII) whitespace. -/
theorem isSpc_of_isDigit (c : Char) (h : c.isDigit = true) : isSpc c = false := by
  revert h
  simp only [Char.isDigit, isSpc, decide_eq_true_eq, Bool.or_eq_true, beq_iff_eq,
    Bool.and_eq_true]
  intro h
  rcases h with ⟨h1, h2⟩
  by_contra hc
  simp only [Bool.not_eq_false, Bool.or_eq_true, beq_iff_eq] at hc
  rcases hc with ((((h | h) | h) | h) | h) | h <;> subst h <;> simp_all

theorem dropWhile_append_of_all {p : Char → Bool} {l₁ : List Char} (l₂ : List Char)
    (h : ∀ a ∈ l₁, p a = true) :
    List.dropWhile p (l₁ ++ l₂) = List.dropWhile p l₂ := by
  induction l₁ with
  | nil => rfl
  | cons a t ih =>
    have ha : p a = true := h a (by simp)
    simp only [List.cons_append, List.dropWhile_cons, ha, if_true]
    exact ih (fun b hb => h b (by simp [hb]))

/-- Full characterization of the operator-code pattern: it accepts
exactly a literal `/code` token, a non-empty whitespace run, then 6 to 8
digits and nothing after, returning the digit group. -/
theorem code_match_l_iff (cs ds : List Char) :
    code_match_l cs = some ds ↔
      ∃ sp, cs = String.data "/code" ++ (sp ++ ds) ∧ sp ≠ [] ∧
        (∀ c ∈ sp, isSpc c = true) ∧ (∀ c ∈ ds, Char.isDigit c = true) ∧
        6 ≤ ds.length ∧ ds.length ≤ 8 := by
  unfold code_match_l
  constructor
  · intro h
    split at h
    case isFalse => simp at h
    case isTrue hc =>
      obtain ⟨htake, hne⟩ := hc
      split at h
      case isFalse => simp at h
      case isTrue hcond =>
        obtain ⟨hall, h6, h8⟩ := hcond
        injection h with h
        subst h
        refine ⟨(cs.drop 5).takeWhile isSpc, ?_, hne, ?_, ?_, h6, h8⟩
        · conv_lhs => rw [← List.take_append_drop 5 cs]
          rw [htake, List.takeWhile_append_dropWhile]
        · exact fun c hc => List.mem_takeWhile_imp hc
        · intro c hc
          exact List.all_eq_true.mp hall c hc
  · rintro ⟨sp, hcs, hne, hsp, hds, h6, h8⟩
    have hL : (String.data "/code").length = 5 := by decide
    have htake : cs.take 5 = String.data "/code" := by
      rw [hcs]; exact List.take_left' hL
    have hdrop : cs.drop 5 = sp ++ ds := by
      rw [hcs]; exact List.drop_left' hL
    have hdw : (cs.drop 5).dropWhile isSpc = ds := by
      rw [hdrop, dropWhile_append_of_all ds hsp]
      cases ds with
      | nil => simp at h6
      | cons d ds' =>
        have hd : isSpc d = false :=
          isSpc_of_isDigit d (hds d (by simp))
        simp [List.dropWhile_cons, hd]
    have htw : (cs.drop 5).takeWhile isSpc ≠ [] := by
      rw [hdrop]
      cases sp with
      | nil => exact absurd rfl hne
      | cons a sp' =>
        have ha : isSpc a = true := hsp a (by simp)
        simp [List.takeWhile_cons, ha]
    rw [if_pos ⟨htake, htw⟩, hdw,
      if_pos ⟨List.all_eq_true.mpr hds, h6, h8⟩]

theorem scan_batch_some {c : String} {l : List Update} {off off2 : Nat} {u : Update}
    (h : scan_batch c l off = (off2, some u)) : u ∈ l ∧ upd_match c u = true := by
  induction l generalizing off with
  | nil => simp [scan_batch] at h
  | cons a t ih =>
    rw [scan_batch] at h
    split at h
    case isTrue hm =>
      simp only [Prod.mk.injEq, Option.some.injEq] at h
      exact ⟨by simp [← h.2], by rw [← h.2]; exact hm⟩
    case isFalse hm =>
      obtain ⟨h1, h2⟩ := ih h
      exact ⟨List.mem_cons_of_mem a h1, h2⟩

theorem scan_batch_ge (c : String) (l : List Update) (m : Nat) : ∀ (o : Nat),
    (∀ u ∈ l, m ≤ u.update_id) → m ≤ o → m ≤ (scan_batch c l o).1 := by
  induction l with
  | nil =>
    intro o _ ho
    simpa [scan_batch] using ho
  | cons a t ih =>
    intro o hl ho
    rw [scan_batch]
    split
    · have := hl a (by simp)
      simp only
      omega
    · exact ih (a.update_id + 1) (fun u hu => hl u (by simp [hu]))
        (by have := hl a (by simp); omega)

theorem scan_batch_none_lt {c : String} {l : List Update} {off off2 : Nat}
    (hp : l.Pairwise updLt) (h : scan_batch c l off = (off2, none)) :
    ∀ u ∈ l, u.update_id < off2 := by
  induction l generalizing off with
  | nil => simp
  | cons a t ih =>
    rw [scan_batch] at h
    split at h
    case isTrue => simp at h
    case isFalse hm =>
      rw [List.pairwise_cons] at hp
      intro u hu
      rcases List.mem_cons.mp hu with rfl | hut
      · have h2 : off2 = (scan_batch c t (u.update_id + 1)).1 := by rw [h]
        have := scan_batch_ge c t (u.update_id + 1) (u.update_id + 1)
          (fun v hv => Nat.succ_le_of_lt (hp.1 v hv)) (le_refl (u.update_id + 1))
        omega
      · exact ih hp.2 h u hut

theorem scan_batch_find (c : String) (l : List Update) : ∀ (o : Nat),
    (scan_batch c l o).2 = l.find? (upd_match c) := by
  induction l with
  | nil => intro o; simp [scan_batch]
  | cons a t ih =>
    intro o
    by_cases hm : upd_match c a = true
    · simp [scan_batch, hm, List.find?_cons_of_pos]
    · rw [scan_batch, if_neg hm, List.find?_cons_of_neg _ hm]
      exact ih (a.update_id + 1)

theorem wait_loop_some {s : List Update} {c : String} :
    ∀ {off fuel : Nat} {u : Update}, (wait_loop s c off fuel).1 = some u →
      off ≤ u.update_id ∧ u ∈ s ∧ upd_match c u = true := by
  intro off fuel
  induction fuel generalizing off with
  | zero => intro u h; simp [wait_loop] at h
  | succ k ih =>
    intro u h
    rw [wait_loop] at h
    rcases hscan : scan_batch c (s.filter fun v => decide (off ≤ v.update_id)) off
      with ⟨off2, r⟩
    rw [hscan] at h
    cases r with
    | some w =>
      simp only [Option.some.injEq] at h
      subst h
      obtain ⟨hw, hm⟩ := scan_batch_some hscan
      obtain ⟨hws, hwo⟩ := List.mem_filter.mp hw
      exact ⟨by simpa using hwo, hws, hm⟩
    | none =>
      simp only at h
      obtain ⟨h1, h2, h3⟩ := ih h
      have hge : off ≤ off2 := by
        have := scan_batch_ge c (s.filter fun u => decide (off ≤ u.update_id)) off off
          (fun v hv => by simpa using (List.mem_filter.mp hv).2) (le_refl off)
        rw [hscan] at this
        exact this
      exact ⟨le_trans hge h1, h2, h3⟩

theorem wait_loop_none {s : List Update} {c : String} :
    ∀ {off : Nat} (fuel : Nat), (∀ u ∈ s, u.update_id < off) →
      (wait_loop s c off fuel).1 = none := by
  intro off fuel
  induction fuel generalizing off with
  | zero => intro _; simp [wait_loop]
  | succ k ih =>
    intro hall
    rw [wait_loop]
    have hnil : (s.filter fun u => decide (off ≤ u.update_id)) = [] := by
      rw [List.filter_eq_nil_iff]
      intro u hu
      have := hall u hu
      simp only [decide_eq_true_eq]
      omega
    rw [hnil]
    simp only [scan_batch]
    exact ih hall

theorem wait_loop_round {s : List Update} {c : String} {off fuel : Nat}
    (hp : s.Pairwise updLt) :
    (wait_loop s c off (fuel + 1)).1 =
      (s.filter fun u => decide (off ≤ u.update_id)).find? (upd_match c) := by
  rw [wait_loop]
  rcases hscan : scan_batch c (s.filter fun u => decide (off ≤ u.update_id)) off
    with ⟨off2, r⟩
  have hfind := scan_batch_find c (s.filter fun u => decide (off ≤ u.update_id)) off
  rw [hscan] at hfind
  cases r with
  | some w => simp [← hfind]
  | none =>
    simp only
    rw [← hfind]
    apply wait_loop_none
    intro u hu
    by_cases hin : off ≤ u.update_id
    · exact scan_batch_none_lt (hp.filter _) hscan u
        (List.mem_filter.mpr ⟨hu, by simpa using hin⟩)
    · have hge : off ≤ off2 := by
        have := scan_batch_ge c (s.filter fun u => decide (off ≤ u.update_id)) off off
          (fun v hv => by simpa using (List.mem_filter.mp hv).2) (le_refl off)
        rw [hscan] at this
        exact this
      omega

theorem getLast?_mem_self {l : List Update} {a : Update} (h : l.getLast? = some a) :
    a ∈ l := by
  rcases List.mem_getLast?_eq_getLast (Option.mem_def.mpr h) with ⟨hne, rfl⟩
  exact List.getLast_mem hne

/-- With strictly increasing update ids, every pending update lies
strictly below the fast-forwarded offset. -/
theorem backlog_lt_flush : ∀ (backlog : List Update), backlog.Pairwise updLt →
    ∀ u ∈ backlog, u.update_id < flush_updates backlog := by
  intro backlog
  induction backlog with
  | nil => intro _ u hu; simp at hu
  | cons a t ih =>
    intro hp u hu
    rw [List.pairwise_cons] at hp
    rcases List.mem_cons.mp hu with rfl | hut
    · cases t with
      | nil => simp [flush_updates]
      | cons b t' =>
        have heq : flush_updates (u :: b :: t') = flush_updates (b :: t') := by
          simp [flush_updates, List.getLast?_cons_cons]
        rw [heq]
        have hx : (b :: t').getLast? = some ((b :: t').getLast (by simp)) :=
          List.getLast?_eq_getLast_of_ne_nil (by simp)
        have hxm : (b :: t').getLast (by simp) ∈ b :: t' := getLast?_mem_self hx
        have hlt : updLt u ((b :: t').getLast (by simp)) := hp.1 _ hxm
        unfold updLt at hlt
        simp only [flush_updates, hx]
        omega
    · cases t with
      | nil => simp at hut
      | cons b t' =>
        have heq : flush_updates (a :: b :: t') = flush_updates (b :: t') := by
          simp [flush_updates, List.getLast?_cons_cons]
        rw [heq]
        exact ih hp.2 u hut

/-- With strictly increasing update ids, every update arriving after the
fast-forward lies at or above the fast-forwarded offset. -/
theorem later_ge_flush {backlog later : List Update}
    (hp : (backlog ++ later).Pairwise updLt) :
    ∀ u ∈ later, flush_updates backlog ≤ u.update_id := by
  intro u hu
  rcases hb : backlog.getLast? with _ | x
  · simp [flush_updates, hb]
  · have hxm : x ∈ backlog := getLast?_mem_self hb
    have hlt : updLt x u := (List.pairwise_append.mp hp).2.2 x hxm u hu
    unfold updLt at hlt
    simp only [flush_updates, hb]
    omega

/-- Dropping elements that a predicate weaker than the search predicate
rejects does not change what `find?` finds. -/
theorem find?_filter_of_imp {p q : Update → Bool} (l : List Update)
    (himp : ∀ u, p u = true → q u = true) :
    (l.filter q).find? p = l.find? p := by
  induction l with
  | nil => rfl
  | cons a t ih =>
    by_cases hq : q a = true
    · rw [List.filter_cons_of_pos hq]
      by_cases hp2 : p a = true
      · rw [List.find?_cons_of_pos _ hp2, List.find?_cons_of_pos _ hp2]
      · rw [List.find?_cons_of_neg _ hp2, List.find?_cons_of_neg _ hp2]
        exact ih
    · have hp2 : ¬ p a = true := fun hpa => hq (himp a hpa)
      rw [List.filter_cons_of_neg (by simpa using hq), List.find?_cons_of_neg _ hp2]
      exact ih

/-- C7: the operator-code pattern of `Telegram.wait_code` accepts
`"/code 123456"` and `"/code 12345678"` (returning the digit string) and
rejects `"/code 12345"`, `"/code 123456789"`, `"code 123456"` and
`"/code 123456 extra"`; in general it accepts exactly a literal `/code`
token, whitespace, then 6 to 8 digits and nothing after. -/
theorem code_pattern_spec :
    code_match "/code 123456" = some "123456" ∧
    code_match "/code 12345678" = some "12345678" ∧
    code_match "/code 12345" = none ∧
    code_match "/code 123456789" = none ∧
    code_match "code 123456" = none ∧
    code_match "/code 123456 extra" = none ∧
    (∀ cs ds : List Char, code_match_l cs = some ds ↔
      ∃ sp, cs = String.data "/code" ++ (sp ++ ds) ∧ sp ≠ [] ∧
        (∀ c ∈ sp, isSpc c = true) ∧ (∀ c ∈ ds, Char.isDigit c = true) ∧
        6 ≤ ds.length ∧ ds.length ≤ 8) :=
  ⟨by decide, by decide, by decide, by decide, by decide, by decide,
    code_match_l_iff⟩

/-- C4 (counterexample): when the fast-forward's `getUpdates` request
fails (exception or not-ok payload), `flush_updates` falls through to
offset 0 with the backlog still pending, and `wait_code` immediately
returns the code of a message that was pending before the fast-forward:
stale-message leakage.  The returned update is the backlog message
itself. -/
theorem wait_code_stale_on_flush_failure :
    (wait_code ⟨some "t", some "c"⟩ false [⟨1, "c", "/code 123456"⟩] [] 1).1 =
      some "123456" ∧
    (wait_loop ([⟨1, "c", "/code 123456"⟩] ++ ([] : List Update)) "c"
      (flush_updates_req false [⟨1, "c", "/code 123456"⟩]) 1).1 =
      some ⟨1, "c", "/code 123456"⟩ ∧
    flush_updates_req false [⟨1, "c", "/code 123456"⟩] = 0 :=
  ⟨by decide, by decide, by decide⟩

/-- C4 (amended): provided the fast-forward's `getUpdates` request
succeeds, `wait_code`'s polling loop never returns an update that was
pending before the fast-forward — for every timeout (polling-round
budget) and every backlog content, given the strictly increasing update
ids Telegram assigns to one stream.  When that request fails, the offset
falls back to 0 and a pending backlog code can be returned (see the
counterexample). -/
theorem wait_code_no_stale_after_flush_success (backlog later : List Update)
    (chat : String) (fuel : Nat) (u : Update)
    (hp : (backlog ++ later).Pairwise updLt)
    (h : (wait_loop (backlog ++ later) chat
      (flush_updates_req true backlog) fuel).1 = some u) :
    u ∉ backlog := by
  intro hmem
  have he : flush_updates_req true backlog = flush_updates backlog := by
    simp [flush_updates_req]
  rw [he] at h
  obtain ⟨h1, _, _⟩ := wait_loop_some h
  have h2 := backlog_lt_flush backlog (List.pairwise_append.mp hp).1 u hmem
  omega

theorem wait_code_no_stale_after_flush_success_witness :
    (⟨2, "c", "/code 654321"⟩ : Update) ∉ [(⟨1, "c", "/code 123456"⟩ : Update)] :=
  wait_code_no_stale_after_flush_success [⟨1, "c", "/code 123456"⟩]
    [⟨2, "c", "/code 654321"⟩] "c" 1 ⟨2, "c", "/code 654321"⟩ (by decide) (by decide)

/-- C8: the `wait_code` polling loop only ever returns a message whose
sender chat identity equals the configured operator identity, and its
result depends only on the messages from that identity: deleting every
foreign-chat message from the pending backlog and from the later
arrivals leaves the result unchanged. -/
theorem wait_code_filters_chat_identity (backlog later : List Update)
    (chat : String) (fuel : Nat)
    (hp : (backlog ++ later).Pairwise updLt) :
    (∀ (u : Update) (off : Nat),
        (wait_loop (backlog ++ later) chat off fuel).1 = some u → u.chat = chat) ∧
    (wait_loop (backlog ++ later) chat (flush_updates backlog) fuel).1 =
      (wait_loop (backlog.filter (fun u => u.chat == chat) ++
          later.filter (fun u => u.chat == chat)) chat
        (flush_updates (backlog.filter (fun u => u.chat == chat))) fuel).1 := by
  constructor
  · intro u off h
    obtain ⟨_, _, hm⟩ := wait_loop_some h
    have := (Bool.and_eq_true _ _).mp hm
    exact eq_of_beq this.1
  · have hp2 : ((backlog.filter (fun u => u.chat == chat)) ++
        (later.filter (fun u => u.chat == chat))).Pairwise updLt := by
      rw [← List.filter_append]
      exact hp.filter _
    cases fuel with
    | zero => rfl
    | succ k =>
      rw [wait_loop_round hp, wait_loop_round hp2]
      have hbl : (backlog.filter fun u =>
          decide (flush_updates backlog ≤ u.update_id)) = [] := by
        rw [List.filter_eq_nil_iff]
        intro u hu
        have := backlog_lt_flush backlog (List.pairwise_append.mp hp).1 u hu
        simp only [decide_eq_true_eq]
        omega
      have hlt : (later.filter fun u =>
          decide (flush_updates backlog ≤ u.update_id)) = later := by
        rw [List.filter_eq_self]
        intro u hu
        simpa using later_ge_flush hp u hu
      have hblF : ((backlog.filter (fun u => u.chat == chat)).filter fun u =>
          decide (flush_updates (backlog.filter (fun u => u.chat == chat)) ≤
            u.update_id)) = [] := by
        rw [List.filter_eq_nil_iff]
        intro u hu
        have := backlog_lt_flush (backlog.filter (fun u => u.chat == chat))
          (List.pairwise_append.mp hp2).1 u hu
        simp only [decide_eq_true_eq]
        omega
      have hltF : ((later.filter (fun u => u.chat == chat)).filter fun u =>
          decide (flush_updates (backlog.filter (fun u => u.chat == chat)) ≤
            u.update_id)) = later.filter (fun u => u.chat == chat) := by
        rw [List.filter_eq_self]
        intro u hu
        simpa using later_ge_flush hp2 u hu
      rw [List.filter_append, List.filter_append, hbl, hlt, hblF, hltF,
        List.nil_append, List.nil_append]
      exact (find?_filter_of_imp later
        (fun u hm => ((Bool.and_eq_true _ _).mp hm).1)).symm

theorem wait_code_filters_chat_identity_witness :
    (wait_loop ([⟨1, "evil", "/code 111111"⟩] ++
        [⟨2, "evil", "/code 222222"⟩, ⟨3, "c", "/code 333333"⟩]) "c"
      (flush_updates [⟨1, "evil", "/code 111111"⟩]) 2).1 =
    (wait_loop (List.filter (fun u => u.chat == "c") [⟨1, "evil", "/code 111111"⟩] ++
        List.filter (fun u => u.chat == "c")
          [⟨2, "evil", "/code 222222"⟩, ⟨3, "c", "/code 333333"⟩]) "c"
      (flush_updates (List.filter (fun u => u.chat == "c")
        [⟨1, "evil", "/code 111111"⟩])) 2).1 :=
  (wait_code_filters_chat_identity [⟨1, "evil", "/code 111111"⟩]
    [⟨2, "evil", "/code 222222"⟩, ⟨3, "c", "/code 333333"⟩] "c" 2 (by decide)).2

/-- C10: with the relay channel unconfigured (missing bot token or chat
identity), `wait_code` returns `None` immediately for every timeout
value, performing no polling round. -/
theorem wait_code_unconfigured_immediate (cfg : TgConfig) (flushReq : Bool)
    (backlog later : List Update) (fuel : Nat) (h : tgOk cfg = false) :
    wait_code cfg flushReq backlog later fuel = (none, 0) := by
  unfold wait_code
  simp [h]

theorem wait_code_unconfigured_immediate_witness :
    wait_code ⟨none, none⟩ true [] [] 120 = (none, 0) :=
  wait_code_unconfigured_immediate ⟨none, none⟩ true [] [] 120 (by decide)

theorem save_cookie_fallback {value : String} {env : UpdateEnv}
    (hu : SecretUpdater.update env = false) (hv : value ≠ "") :
    save_cookie value env =
      { logs := [cookie_log value, "✅ 已通过 Telegram 发送 Cookie"],
        sends := [relay_msg value] } := by
  have he : value.isEmpty = false := by
    cases hI : value.isEmpty with
    | false => rfl
    | true => exact absurd ((String.isEmpty_iff value).mp hI) hv
  simp [save_cookie, he, hu]

theorem hasSubS_relay (value : String) : hasSubS value (relay_msg value) = true := by
  unfold hasSubS relay_msg
  rw [String.data_append, String.data_append]
  exact hasSub_of_append _ _ _

/-- Two strings differ when they differ at one position inside a known
common-structure head. -/
theorem ne_of_head_diff {t : String} (pre : String) (r : List Char) (i : Nat)
    (hi : i < pre.data.length) (hne : pre.data[i]? ≠ t.data[i]?) :
    ∀ s : String, s.data = pre.data ++ r → s ≠ t := by
  intro s hs he
  apply hne
  rw [← he, hs, List.getElem?_append_left hi]

/-- C2: a non-empty session credential passed to `save_cookie` is never
silently dropped: either the remote secret update succeeds, or some
relay message sent to the operator contains the literal credential
value. -/
theorem save_cookie_never_drops (value : String) (env : UpdateEnv)
    (h : value ≠ "") :
    SecretUpdater.update env = true ∨
      ∃ m ∈ (save_cookie value env).sends, hasSubS value m = true := by
  by_cases hu : SecretUpdater.update env = true
  · exact Or.inl hu
  · have hu2 : SecretUpdater.update env = false := by simpa using hu
    right
    refine ⟨relay_msg value, ?_, hasSubS_relay value⟩
    rw [save_cookie_fallback hu2 h]
    simp

theorem save_cookie_never_drops_witness :
    SecretUpdater.update ⟨true, Except.ok 200, Except.ok 500⟩ = true ∨
      ∃ m ∈ (save_cookie "tok_value_12345"
        ⟨true, Except.ok 200, Except.ok 500⟩).sends,
          hasSubS "tok_value_12345" m = true :=
  save_cookie_never_drops "tok_value_12345" ⟨true, Except.ok 200, Except.ok 500⟩
    (by decide)

/-- C5: the remote persistence step reports success exactly when the
final store-update request is reached and returns HTTP 201 or 204; on
every failing outcome (HTTP 500, any exception, missing configuration)
`save_cookie` relays the literal credential to the operator, and neither
logs the automatic-update success line nor sends the automatic-update
notification. -/
theorem secret_update_success_iff (env : UpdateEnv) (value : String) :
    (SecretUpdater.update env = true ↔
      ∃ s, final_put_status env = some s ∧ (s = 201 ∨ s = 204)) ∧
    (SecretUpdater.update env = false → value ≠ "" →
      ((∃ m ∈ (save_cookie value env).sends, hasSubS value m = true) ∧
        "✅ 已自动更新 GH_SESSION" ∉ (save_cookie value env).logs ∧
        "🔑 <b>Cookie 已自动更新</b>\n\nGH_SESSION 已保存" ∉
          (save_cookie value env).sends)) := by
  constructor
  · rcases env with ⟨ok, kr, pr⟩
    cases ok with
    | false => simp [SecretUpdater.update, final_put_status]
    | true =>
      cases kr with
      | error e => simp [SecretUpdater.update, final_put_status]
      | ok ks =>
        by_cases hks : ks = 200
        · subst hks
          cases pr with
          | error e => simp [SecretUpdater.update, final_put_status]
          | ok ps =>
            simp [SecretUpdater.update, final_put_status]
        · simp [SecretUpdater.update, final_put_status, hks]
  · intro hu hv
    have h1 : cookie_log value ≠ "✅ 已自动更新 GH_SESSION" :=
      ne_of_head_diff "✅ 新 Cookie: "
        (value.data.take 15 ++ (String.data "..." ++ (pyTakeRight value 8).data)) 2
        (by decide) (by decide) (cookie_log value)
        (by simp [cookie_log, String.data_append, List.append_assoc])
    have h2 : relay_msg value ≠ "🔑 <b>Cookie 已自动更新</b>\n\nGH_SESSION 已保存" :=
      ne_of_head_diff "🔑 <b>新 Cookie</b>\n\n请更新 Secret <b>GH_SESSION</b>:\n<code>"
        (value.data ++ String.data "</code>") 5
        (by decide) (by decide) (relay_msg value)
        (by simp [relay_msg, String.data_append, List.append_assoc])
    refine ⟨⟨relay_msg value, ?_, hasSubS_relay value⟩, ?_, ?_⟩
    · rw [save_cookie_fallback hu hv]
      simp
    · rw [save_cookie_fallback hu hv]
      intro hmem
      rcases List.mem_cons.mp hmem with he | hmem2
      · exact h1 he.symm
      · rcases List.mem_cons.mp hmem2 with he | h3
        · exact absurd he (by decide)
        · simp at h3
    · rw [save_cookie_fallback hu hv]
      intro hmem
      rcases List.mem_cons.mp hmem with he | h3
      · exact h2 he.symm
      · simp at h3

/-- C1 (evidence of the code bug): when the page lands on the plain
login URL during the push-based second-factor wait, the resolver
returns `True` (resolved) — not `False` (explicit-rejection) as the
spec states and the code's own comment intends — because the
left-the-two-factor-path check runs first and the plain login URL does
not contain `"github.com/sessions/two-factor/"`. -/
theorem wait_two_factor_mobile_login_bounce_resolves :
    wait_two_factor_mobile (fun _ => "https://github.com/login") 120 = true ∧
    hasSubS "github.com/login" "https://github.com/login" = true ∧
    hasSubS "github.com/sessions/two-factor/" "https://github.com/login" = false := by
  exact ⟨by decide, by decide, by decide⟩

theorem wait_device_from_false_iff (urls : Nat → String) :
    ∀ (rem i : Nat), (wait_device_from urls i rem = false ↔
      (hasSubS "verified-device" (urls (i + rem)) = true ∧
        ∀ j, i ≤ j → j < i + rem → j % 5 = 0 → device_on_path (urls j) = true)) := by
  intro rem
  induction rem with
  | zero =>
    intro i
    constructor
    · intro h
      refine ⟨by simpa [wait_device_from] using h, ?_⟩
      intro j h1 h2 _
      omega
    · intro h
      obtain ⟨h1, h2⟩ := h
      simp only [Nat.add_zero] at h1
      simp [wait_device_from, h1]
  | succ rem ih =>
    intro i
    rw [wait_device_from]
    by_cases hc : (i % 5 == 0 && !device_on_path (urls i)) = true
    · rw [if_pos hc]
      simp only [Bool.and_eq_true, beq_iff_eq, Bool.not_eq_true'] at hc
      constructor
      · intro h
        simp at h
      · rintro ⟨h1, h2⟩
        have := h2 i (le_refl i) (by omega) hc.1
        rw [hc.2] at this
        simp at this
    · rw [if_neg hc]
      rw [ih (i + 1)]
      have hieq : i + 1 + rem = i + (rem + 1) := by omega
      rw [hieq]
      constructor
      · rintro ⟨h1, h2⟩
        refine ⟨h1, fun j hj1 hj2 hj5 => ?_⟩
        by_cases hji : j = i
        · subst hji
          by_contra hdp
          apply hc
          simp only [Bool.and_eq_true, beq_iff_eq, Bool.not_eq_true']
          exact ⟨hj5, by simpa using hdp⟩
        · exact h2 j (by omega) hj2 hj5
      · rintro ⟨h1, h2⟩
        exact ⟨h1, fun j hj1 hj2 hj5 => h2 j (by omega) hj2 hj5⟩

/-- C3 (counterexample): at expiry with every observed URL still on the
device-verification path via the `'device-verification'` marker only
(never `'verified-device'`), the resolver returns `True` (resolved),
although the claim requires timed-out (`False`) when the URL has not
left the verification path. -/
theorem wait_device_timeout_still_on_path :
    wait_device (fun _ => "https://github.com/sessions/device-verification") 30 = true ∧
    device_on_path "https://github.com/sessions/device-verification" = true ∧
    hasSubS "verified-device" "https://github.com/sessions/device-verification" = false := by
  refine ⟨by decide, by decide, by decide⟩

/-- C3 (amended): on expiry of the wait window the device-approval
resolver returns timed-out (`False`) exactly when the final URL still
contains the `'verified-device'` marker and every scheduled check
(every 5th second) observed the URL on the verification path; the
expiry check tests only the `'verified-device'` marker, so a final URL
containing only `'device-verification'` also counts as resolved.  In
particular, a timeout expiring exactly as the URL has left the
verification path yields resolved (`True`). -/
theorem wait_device_expiry_spec (urls : Nat → String) (wait : Nat) :
    (wait_device urls wait = false ↔
      (hasSubS "verified-device" (urls wait) = true ∧
        ∀ i, i < wait → i % 5 = 0 → device_on_path (urls i) = true)) ∧
    (device_on_path (urls wait) = false → wait_device urls wait = true) := by
  have hmain := wait_device_from_false_iff urls wait 0
  simp only [Nat.zero_add] at hmain
  constructor
  · rw [wait_device, hmain]
    constructor
    · rintro ⟨h1, h2⟩
      exact ⟨h1, fun i hi h5 => h2 i (Nat.zero_le i) hi h5⟩
    · rintro ⟨h1, h2⟩
      exact ⟨h1, fun j _ hj h5 => h2 j hj h5⟩
  · intro hoff
    by_contra hfd
    have hfd2 : wait_device urls wait = false := by
      cases h : wait_device urls wait
      · rfl
      · exact absurd h hfd
    rw [wait_device, hmain] at hfd2
    have hvd : hasSubS "verified-device" (urls wait) = false := by
      have := hoff
      unfold device_on_path at this
      exact (Bool.or_eq_false_iff.mp this).1
    rw [hfd2.1] at hvd
    simp at hvd

theorem success_tail_shape (nc : Option String) (acc : List Stage) :
    (success_tail nc acc).notifies = [true] ∧ (success_tail nc acc).exitCode = 0 := by
  cases nc <;> simp [success_tail]

theorem run_step4_shape (env : RunEnv) (acc : List Stage) :
    ((run_step4 env acc).notifies = [true] ∧ (run_step4 env acc).exitCode = 0) ∨
    ((run_step4 env acc).notifies = [false] ∧ (run_step4 env acc).exitCode = 1) := by
  unfold run_step4
  cases hrr : env.redirectResult with
  | error e => simp [crash_result]
  | ok b =>
    cases b
    · simp
    · cases hc : (!hasSubS "claw.cloud" env.urlFinal ||
          hasSubS "signin" (pyLower env.urlFinal)) with
      | true => simp [hc]
      | false =>
        simp only [hc, Bool.false_eq_true, if_false]
        exact Or.inl (success_tail_shape env.newCookie _)

theorem run_shape (env : RunEnv)
    (h : (truthy env.username && truthy env.password) = true)
    (hl : env.launch = Except.ok ()) :
    ((run env).notifies = [true] ∧ (run env).exitCode = 0) ∨
    ((run env).notifies = [false] ∧ (run env).exitCode = 1) := by
  unfold run
  rw [h, hl]
  simp only [Bool.not_true, Bool.false_eq_true, if_false]
  cases hg : env.gotoStep with
  | error e => simp [crash_result]
  | ok u =>
    cases u
    cases hs : hasSubS "signin" (pyLower env.urlAfterGoto) with
    | false =>
      simp only [hs, Bool.not_false, if_true]
      exact Or.inl (success_tail_shape env.newCookie _)
    | true =>
      simp only [hs, Bool.not_true, Bool.false_eq_true, if_false]
      cases hcl : env.clickGitHub with
      | false => simp
      | true =>
        simp only [Bool.not_true, Bool.false_eq_true, if_false]
        cases hpw : env.postClickWait with
        | error e => simp [crash_result]
        | ok u2 =>
          cases u2
          simp only
          unfold run_step3
          cases hb1 : (hasSubS "github.com/login" env.urlAfterClick ||
              hasSubS "github.com/session" env.urlAfterClick) with
          | true =>
            simp only [hb1, if_true]
            rcases hlg : login_github env.loginEnv with ⟨er | b, s⟩
            · simp [crash_result]
            · cases b
              · simp
              · exact run_step4_shape env _
          | false =>
            simp only [hb1, Bool.false_eq_true, if_false]
            cases hb2 : hasSubS "github.com/login/oauth/authorize" env.urlAfterClick with
            | true =>
              simp only [hb2, if_true]
              cases hoa : env.oauthStep with
              | error e => simp [crash_result]
              | ok u3 => exact run_step4_shape env _
            | false =>
              simp only [hb2, Bool.false_eq_true, if_false]
              exact run_step4_shape env _

/-- C6 (amended): the run reports through the reporter exactly once on
the missing-credentials path and on every terminating path where
browser startup succeeds, with exit status 0 exactly on overall success
(reporter called with success) and 1 on every failure path; but when
browser startup itself raises — it happens outside the `try`/`except` —
the run exits 1 without any report. -/
theorem run_single_report_and_exit (env : RunEnv) :
    ((truthy env.username && truthy env.password) = false →
      (run env).notifies = [false] ∧ (run env).exitCode = 1) ∧
    (∀ e, env.launch = Except.error e →
      (truthy env.username && truthy env.password) = true →
      (run env).notifies = [] ∧ (run env).exitCode = 1) ∧
    ((truthy env.username && truthy env.password) = true →
      env.launch = Except.ok () →
      (run env).notifies.length = 1 ∧
      ((run env).exitCode = 0 ∨ (run env).exitCode = 1) ∧
      ((run env).exitCode = 0 ↔ (run env).notifies = [true])) := by
  refine ⟨?_, ?_, ?_⟩
  · intro h
    simp [run, h]
  · intro e he h
    simp [run, h, he]
  · intro h hl
    rcases run_shape env h hl with ⟨h1, h2⟩ | ⟨h1, h2⟩ <;> rw [h1, h2] <;> simp

theorem run_single_report_and_exit_witness :
    ((truthy launch_fail_env.username && truthy launch_fail_env.password) = false →
      (run launch_fail_env).notifies = [false] ∧ (run launch_fail_env).exitCode = 1) ∧
    (∀ e, launch_fail_env.launch = Except.error e →
      (truthy launch_fail_env.username && truthy launch_fail_env.password) = true →
      (run launch_fail_env).notifies = [] ∧ (run launch_fail_env).exitCode = 1) ∧
    ((truthy launch_fail_env.username && truthy launch_fail_env.password) = true →
      launch_fail_env.launch = Except.ok () →
      (run launch_fail_env).notifies.length = 1 ∧
      ((run launch_fail_env).exitCode = 0 ∨ (run launch_fail_env).exitCode = 1) ∧
      ((run launch_fail_env).exitCode = 0 ↔
        (run launch_fail_env).notifies = [true])) :=
  run_single_report_and_exit launch_fail_env

/-- C6 (counterexample): with credentials configured but the browser
launch raising, the run terminates with exit status 1 and performs zero
reporter invocations — not exactly one as the claim requires on every
terminating path. -/
theorem run_launch_failure_no_report :
    (run launch_fail_env).notifies = [] ∧ (run launch_fail_env).exitCode = 1 := by
  constructor <;> rfl

/-- C9: when the URL after initial navigation is no longer a sign-in
URL, the run completes successfully via the short-circuit path —
keepalive, credential extraction (and `save_cookie` when a cookie was
extracted), one success report, exit 0 — and invokes no challenge
resolver, no provider-handoff click and no password-entry stage. -/
theorem run_short_circuit_spec (env : RunEnv)
    (hcred : (truthy env.username && truthy env.password) = true)
    (hl : env.launch = Except.ok ())
    (hg : env.gotoStep = Except.ok ())
    (hs : hasSubS "signin" (pyLower env.urlAfterGoto) = false) :
    (run env).exitCode = 0 ∧ (run env).notifies = [true] ∧
    Stage.keepalive ∈ (run env).stages ∧
    Stage.extractCookie ∈ (run env).stages ∧
    (env.newCookie.isSome = true → Stage.saveCookieStage ∈ (run env).stages) ∧
    (∀ st ∈ (run env).stages,
      st = Stage.keepalive ∨ st = Stage.extractCookie ∨ st = Stage.saveCookieStage) := by
  have hrun : run env = success_tail env.newCookie [] := by
    simp [run, hcred, hl, hg, hs]
  rw [hrun]
  cases hnc : env.newCookie with
  | none =>
    simp only [success_tail, List.nil_append]
    decide
  | some v =>
    simp only [success_tail, List.nil_append, Option.isSome_some]
    refine ⟨trivial, trivial, by decide, by decide, fun _ => by decide, by decide⟩

theorem run_short_circuit_spec_witness :
    (run short_circuit_env).exitCode = 0 ∧ (run short_circuit_env).notifies = [true] ∧
    Stage.keepalive ∈ (run short_circuit_env).stages ∧
    Stage.extractCookie ∈ (run short_circuit_env).stages ∧
    (short_circuit_env.newCookie.isSome = true →
      Stage.saveCookieStage ∈ (run short_circuit_env).stages) ∧
    (∀ st ∈ (run short_circuit_env).stages,
      st = Stage.keepalive ∨ st = Stage.extractCookie ∨ st = Stage.saveCookieStage) :=
  run_short_circuit_spec short_circuit_env (by decide) rfl rfl (by decide)
